import Mathlib

/-!
Shallow embedding of the fast-shard library (src/lib.rs): a key-to-shard
router that matches the key length against configured size tiers, resolves
an ordered algorithm preference list to the first algorithm available on
the platform, hashes the key with the chosen algorithm, and reduces the
digest modulo the shard count.

Machine integers are modelled as Nat with explicit reductions: u32 values
are reduced mod 2^32 where the code casts or wraps, u64 values mod 2^64.
Compile-time target features and runtime feature detection are modelled as
two independent boolean capability records, since the code gates on both.
The external hash crates (xxhash-rust, fnv) and the AES-NI folded state are
out-of-scope primitives consumed under the contract bytes -> 64-bit digest,
so they are parameters of the embedding; the AVX-512 and AVX2 digest loops
live in src/lib.rs and are embedded concretely.
-/

namespace FastShardLib

/-- The five algorithm tags of src/lib.rs (enum ShardAlgorithm). -/
inductive ShardAlgorithm where
  | Avx512
  | Avx2
  | AesNi
  | Fnv1a
  | Xxh3
deriving DecidableEq, Repr

/-- A size tier: an inclusive range of key lengths (RangeInclusive, modelled
as the pair of its bounds) and an ordered algorithm preference list
(struct ShardTier). -/
structure ShardTier where
  lo : Nat
  hi : Nat
  algorithms : List ShardAlgorithm
deriving DecidableEq, Repr

/-- Engine configuration: ordered tiers plus the fallback preference list
(struct ShardConfig). -/
structure ShardConfig where
  tiers : List ShardTier
  default_algorithms : List ShardAlgorithm
deriving DecidableEq, Repr

/-- usize::MAX on the 64-bit targets the SIMD paths compile for. -/
def usizeMax : Nat := 2 ^ 64 - 1

/-- RangeInclusive::contains for a tier range: both bounds inclusive. -/
def tierContains (t : ShardTier) (s : Nat) : Bool :=
  decide (t.lo ≤ s) && decide (s ≤ t.hi)

/-- The small-key preference list built by ShardConfig::default. -/
def smallKeyAlgorithms : List ShardAlgorithm :=
  [.Avx512, .Avx2, .AesNi, .Fnv1a, .Xxh3]

/-- The large-key preference list built by ShardConfig::default. -/
def largeKeyAlgorithms : List ShardAlgorithm :=
  [.Avx512, .Avx2, .AesNi, .Xxh3, .Fnv1a]

/-- ShardConfig::default: tier 0..=16 with the small-key list, tier
17..=usize::MAX with the large-key list, default list [Xxh3]. -/
def ShardConfig.default : ShardConfig :=
  { tiers :=
      [ { lo := 0, hi := 16, algorithms := smallKeyAlgorithms },
        { lo := 17, hi := usizeMax, algorithms := largeKeyAlgorithms } ],
    default_algorithms := [.Xxh3] }

/-- Compile-time target features (cfg(target_feature)) or runtime detection
results (is_x86_feature_detected); one record per role. -/
structure Caps where
  avx512f : Bool
  avx2 : Bool
  aes : Bool
deriving DecidableEq, Repr

/-- The out-of-scope hash primitives, consumed under the contract
bytes -> 64-bit digest (the xxhash-rust and fnv crates), and the raw
AES-NI folded state extraction. Uses reduce values to the width the code
gives them. -/
structure HashPrims where
  xxh3_64 : List Nat → Nat
  fnv1a_64 : List Nat → Nat
  aesni_raw : List Nat → Nat

/-- The engine: a shard count (u32 in the code) and a configuration
(struct FastShard). -/
structure FastShard where
  shard_count : Nat
  config : ShardConfig
deriving Repr

/-- FastShard::new: stores the given count with the default config,
with no validation. -/
def FastShard.new (shard_count : Nat) : FastShard :=
  { shard_count := shard_count, config := ShardConfig.default }

/-- FastShard::with_config: stores both fields as given, with no
validation. -/
def FastShard.with_config (shard_count : Nat) (config : ShardConfig) :
    FastShard :=
  { shard_count := shard_count, config := config }

/-- FastShard::get_available_algorithm: walk the preference list, return
the first entry whose compile-time capability gate passes; Fnv1a and Xxh3
return unconditionally; an exhausted list yields the final Xxh3 fallback. -/
def get_available_algorithm (ct : Caps) :
    List ShardAlgorithm → ShardAlgorithm
  | [] => .Xxh3
  | a :: rest =>
    match a with
    | .Avx512 => if ct.avx512f then .Avx512 else get_available_algorithm ct rest
    | .Avx2 => if ct.avx2 then .Avx2 else get_available_algorithm ct rest
    | .AesNi => if ct.aes then .AesNi else get_available_algorithm ct rest
    | .Fnv1a => .Fnv1a
    | .Xxh3 => .Xxh3

/-- The tier loop of FastShard::get_algorithm_for_size: first tier whose
inclusive range contains the size wins; otherwise the default list. -/
def findTierAlgo (ct : Caps) (size : Nat) (dflt : List ShardAlgorithm) :
    List ShardTier → ShardAlgorithm
  | [] => get_available_algorithm ct dflt
  | t :: rest =>
    if tierContains t size then get_available_algorithm ct t.algorithms
    else findTierAlgo ct size dflt rest

/-- FastShard::get_algorithm_for_size. -/
def get_algorithm_for_size (ct : Caps) (cfg : ShardConfig) (size : Nat) :
    ShardAlgorithm :=
  findTierAlgo ct size cfg.default_algorithms cfg.tiers

/-- slice::chunks: split a list into consecutive chunks of n elements, the
last possibly shorter (the code only calls it with n = 64, 32, 16). -/
def chunksOf (n : Nat) (l : List Nat) : List (List Nat) :=
  if hg : l = [] ∨ n = 0 then []
  else l.take n :: chunksOf n (l.drop n)
termination_by l.length
decreasing_by
  push_neg at hg
  have hl : 0 < l.length := List.length_pos.mpr hg.1
  simp only [List.length_drop]
  omega

/-- Zero-pad a chunk on the right to n bytes (the padded buffer the code
copies short chunks into before the SIMD load). -/
def padTo (n : Nat) (l : List Nat) : List Nat :=
  l ++ List.replicate (n - l.length) 0

/-- Little-endian byte list to Nat (how a SIMD load interprets 32-bit
lanes). -/
def leBytesToNat : List Nat → Nat
  | [] => 0
  | b :: rest => b + 256 * leBytesToNat rest

/-- _mm512_reduce_add_epi32 of a 64-byte buffer, cast to u32: the wrapping
sum of its sixteen little-endian 32-bit lanes. -/
def reduceAdd32 (buf : List Nat) : Nat :=
  ((chunksOf 4 buf).map leBytesToNat).sum % 2 ^ 32

/-- The AVX-512 digest loop of shard_with_avx512: wrapping u32 sum of the
lane-reductions of the zero-padded 64-byte chunks. -/
def avx512Hash (key : List Nat) : Nat :=
  (chunksOf 64 key).foldl (fun h c => (h + reduceAdd32 (padTo 64 c)) % 2 ^ 32) 0

/-- _mm256_extract_epi32 lane 0 of a padded 32-byte chunk, cast to u32:
the first four bytes little-endian. -/
def avx2Lane0 (c : List Nat) : Nat :=
  leBytesToNat ((padTo 32 c).take 4) % 2 ^ 32

/-- The AVX2 digest loop of shard_with_avx2: wrapping u32 sum of lane 0 of
each zero-padded 32-byte chunk. -/
def avx2Hash (key : List Nat) : Nat :=
  (chunksOf 32 key).foldl (fun h c => (h + avx2Lane0 c) % 2 ^ 32) 0

/-- FastShard::shard_with_xxh3: xxh3_64 of the key (a u64), mod shard_count
as u64, cast to u32. -/
def FastShard.shard_with_xxh3 (p : HashPrims) (e : FastShard)
    (key : List Nat) : Nat :=
  ((p.xxh3_64 key % 2 ^ 64) % e.shard_count) % 2 ^ 32

/-- FastShard::shard_with_fnv1a: the FNV-1a 64-bit digest, mod shard_count
as u64, cast to u32. -/
def FastShard.shard_with_fnv1a (p : HashPrims) (e : FastShard)
    (key : List Nat) : Nat :=
  ((p.fnv1a_64 key % 2 ^ 64) % e.shard_count) % 2 ^ 32

/-- FastShard::shard_with_avx512: with the compile-time feature and a
positive runtime probe, the AVX-512 digest mod shard_count; otherwise the
Xxh3 path (both the cfg(not(avx512f)) body and the runtime-else branch). -/
def FastShard.shard_with_avx512 (p : HashPrims) (ct rt : Caps)
    (e : FastShard) (key : List Nat) : Nat :=
  if ct.avx512f then
    if rt.avx512f then avx512Hash key % e.shard_count
    else e.shard_with_xxh3 p key
  else e.shard_with_xxh3 p key

/-- FastShard::shard_with_avx2: same shape with the AVX2 digest. -/
def FastShard.shard_with_avx2 (p : HashPrims) (ct rt : Caps)
    (e : FastShard) (key : List Nat) : Nat :=
  if ct.avx2 then
    if rt.avx2 then avx2Hash key % e.shard_count
    else e.shard_with_xxh3 p key
  else e.shard_with_xxh3 p key

/-- FastShard::shard_with_aesni: with the feature and a positive probe,
lane 0 of the AES-folded state (a u32) mod shard_count; otherwise the
Xxh3 path. -/
def FastShard.shard_with_aesni (p : HashPrims) (ct rt : Caps)
    (e : FastShard) (key : List Nat) : Nat :=
  if ct.aes then
    if rt.aes then (p.aesni_raw key % 2 ^ 32) % e.shard_count
    else e.shard_with_xxh3 p key
  else e.shard_with_xxh3 p key

/-- FastShard::shard: resolve the key length to an algorithm and dispatch
to the per-algorithm routine. -/
def FastShard.shard (p : HashPrims) (ct rt : Caps) (e : FastShard)
    (key : List Nat) : Nat :=
  match get_algorithm_for_size ct e.config key.length with
  | .Avx512 => e.shard_with_avx512 p ct rt key
  | .Avx2 => e.shard_with_avx2 p ct rt key
  | .AesNi => e.shard_with_aesni p ct rt key
  | .Fnv1a => e.shard_with_fnv1a p key
  | .Xxh3 => e.shard_with_xxh3 p key

/-- Availability predicate in the words of spec 4.2: the SIMD and cipher
variants need a positive capability probe, the two non-cryptographic
variants are always available. -/
def specAvailable (ct : Caps) : ShardAlgorithm → Bool
  | .Avx512 => ct.avx512f
  | .Avx2 => ct.avx2
  | .AesNi => ct.aes
  | .Fnv1a => true
  | .Xxh3 => true

/-- Selection in the words of spec 4.2: first available entry of the
preference list, with the fixed Xxh3 fallback when none is. -/
def specSelect (ct : Caps) (prefs : List ShardAlgorithm) : ShardAlgorithm :=
  (prefs.find? (specAvailable ct)).getD .Xxh3

/-- Tier resolution in the words of spec 4.1: the algorithms of the first
tier whose inclusive range contains the size, else the default list. -/
def specResolve (cfg : ShardConfig) (size : Nat) : List ShardAlgorithm :=
  ((cfg.tiers.find? (fun t => tierContains t size)).map
    (·.algorithms)).getD cfg.default_algorithms

/-- The per-algorithm digest computed by the dispatch targets, factored out
of shard: the value the code reduces mod shard_count (the AVX paths and
lane extraction are u32-valued, the hash crates u64-valued; a negative
runtime probe substitutes the Xxh3 digest). -/
def digest (p : HashPrims) (rt : Caps) (algo : ShardAlgorithm)
    (key : List Nat) : Nat :=
  match algo with
  | .Avx512 => if rt.avx512f then avx512Hash key else p.xxh3_64 key % 2 ^ 64
  | .Avx2 => if rt.avx2 then avx2Hash key else p.xxh3_64 key % 2 ^ 64
  | .AesNi => if rt.aes then p.aesni_raw key % 2 ^ 32
              else p.xxh3_64 key % 2 ^ 64
  | .Fnv1a => p.fnv1a_64 key % 2 ^ 64
  | .Xxh3 => p.xxh3_64 key % 2 ^ 64

/-- All-false capability record: a platform with none of avx512f, avx2,
aes. -/
def noCaps : Caps := { avx512f := false, avx2 := false, aes := false }

/-- Concrete all-zero hash primitives, for instantiating the abstract
primitive parameters at concrete inputs. -/
def zeroPrims : HashPrims :=
  { xxh3_64 := fun _ => 0, fnv1a_64 := fun _ => 0, aesni_raw := fun _ => 0 }

/-- A configuration whose only tier and whose default list are both empty
preference lists. -/
def emptyPrefsConfig : ShardConfig :=
  { tiers := [{ lo := 0, hi := usizeMax, algorithms := [] }],
    default_algorithms := [] }

/-! Helper lemmas. -/

/-- Reducing an already-reduced value further cannot leave the range of the
first modulus. -/
lemma mod_mod_lt (a n m : Nat) (hn : 0 < n) : a % n % m < n :=
  lt_of_le_of_lt (Nat.mod_le _ _) (Nat.mod_lt _ hn)

/-- A value reduced mod n below the cast width m is unchanged by the
cast. -/
lemma mod_cast_eq (a n m : Nat) (hn : 0 < n) (hw : n ≤ m) :
    a % n % m = a % n :=
  Nat.mod_eq_of_lt (lt_of_lt_of_le (Nat.mod_lt _ hn) hw)

/-- A wrapping-u32 accumulation loop stays below 2^32. -/
lemma foldl_wrap_lt {α : Type} (g : α → Nat) (l : List α) (a : Nat)
    (ha : a < 2 ^ 32) :
    l.foldl (fun h c => (h + g c) % 2 ^ 32) a < 2 ^ 32 := by
  induction l generalizing a with
  | nil => exact ha
  | cons c l ih => exact ih _ (Nat.mod_lt _ (by norm_num))

/-- The AVX-512 digest is a u32 value. -/
lemma avx512Hash_lt (key : List Nat) : avx512Hash key < 2 ^ 32 :=
  foldl_wrap_lt (fun c => reduceAdd32 (padTo 64 c)) _ 0 (by norm_num)

/-- The AVX2 digest is a u32 value. -/
lemma avx2Hash_lt (key : List Nat) : avx2Hash key < 2 ^ 32 :=
  foldl_wrap_lt avx2Lane0 _ 0 (by norm_num)

/-- The capability-gated selection loop agrees with the spec-worded
first-available selection. -/
lemma gaa_eq_specSelect (ct : Caps) (l : List ShardAlgorithm) :
    get_available_algorithm ct l = specSelect ct l := by
  induction l with
  | nil => rfl
  | cons a l ih =>
    cases a
    case Avx512 =>
      by_cases hc : ct.avx512f <;>
        simp [get_available_algorithm, specSelect, specAvailable,
          List.find?, hc, ih]
    case Avx2 =>
      by_cases hc : ct.avx2 <;>
        simp [get_available_algorithm, specSelect, specAvailable,
          List.find?, hc, ih]
    case AesNi =>
      by_cases hc : ct.aes <;>
        simp [get_available_algorithm, specSelect, specAvailable,
          List.find?, hc, ih]
    case Fnv1a =>
      simp [get_available_algorithm, specSelect, specAvailable, List.find?]
    case Xxh3 =>
      simp [get_available_algorithm, specSelect, specAvailable, List.find?]

/-- The tier loop agrees with the spec-worded first-match resolution
composed with selection. -/
lemma findTierAlgo_eq (ct : Caps) (size : Nat)
    (dflt : List ShardAlgorithm) (tiers : List ShardTier) :
    findTierAlgo ct size dflt tiers =
      get_available_algorithm ct
        (((tiers.find? fun t => tierContains t size).map
          (·.algorithms)).getD dflt) := by
  induction tiers with
  | nil => rfl
  | cons t rest ih =>
    by_cases h : tierContains t size <;>
      simp [findTierAlgo, List.find?, h, ih]

/-- get_algorithm_for_size factors through the spec-worded resolver. -/
lemma gafs_eq_spec (ct : Caps) (cfg : ShardConfig) (size : Nat) :
    get_algorithm_for_size ct cfg size =
      get_available_algorithm ct (specResolve cfg size) :=
  findTierAlgo_eq ct size cfg.default_algorithms cfg.tiers

/-- Selection returns Avx512 only when the avx512f gate is on. -/
lemma gaa_avx512_sound (ct : Caps) (l : List ShardAlgorithm) :
    get_available_algorithm ct l = .Avx512 → ct.avx512f = true := by
  induction l with
  | nil => intro h; simp [get_available_algorithm] at h
  | cons a l ih =>
    intro h
    cases a <;> simp only [get_available_algorithm] at h
    case Avx512 =>
      by_cases hc : ct.avx512f
      · exact hc
      · rw [if_neg hc] at h; exact ih h
    case Avx2 =>
      by_cases hc : ct.avx2
      · rw [if_pos hc] at h; exact absurd h (by simp)
      · rw [if_neg hc] at h; exact ih h
    case AesNi =>
      by_cases hc : ct.aes
      · rw [if_pos hc] at h; exact absurd h (by simp)
      · rw [if_neg hc] at h; exact ih h
    case Fnv1a => exact absurd h (by simp)
    case Xxh3 => exact absurd h (by simp)

/-- Selection returns Avx2 only when the avx2 gate is on. -/
lemma gaa_avx2_sound (ct : Caps) (l : List ShardAlgorithm) :
    get_available_algorithm ct l = .Avx2 → ct.avx2 = true := by
  induction l with
  | nil => intro h; simp [get_available_algorithm] at h
  | cons a l ih =>
    intro h
    cases a <;> simp only [get_available_algorithm] at h
    case Avx512 =>
      by_cases hc : ct.avx512f
      · rw [if_pos hc] at h; exact absurd h (by simp)
      · rw [if_neg hc] at h; exact ih h
    case Avx2 =>
      by_cases hc : ct.avx2
      · exact hc
      · rw [if_neg hc] at h; exact ih h
    case AesNi =>
      by_cases hc : ct.aes
      · rw [if_pos hc] at h; exact absurd h (by simp)
      · rw [if_neg hc] at h; exact ih h
    case Fnv1a => exact absurd h (by simp)
    case Xxh3 => exact absurd h (by simp)

/-- Selection returns AesNi only when the aes gate is on. -/
lemma gaa_aes_sound (ct : Caps) (l : List ShardAlgorithm) :
    get_available_algorithm ct l = .AesNi → ct.aes = true := by
  induction l with
  | nil => intro h; simp [get_available_algorithm] at h
  | cons a l ih =>
    intro h
    cases a <;> simp only [get_available_algorithm] at h
    case Avx512 =>
      by_cases hc : ct.avx512f
      · rw [if_pos hc] at h; exact absurd h (by simp)
      · rw [if_neg hc] at h; exact ih h
    case Avx2 =>
      by_cases hc : ct.avx2
      · rw [if_pos hc] at h; exact absurd h (by simp)
      · rw [if_neg hc] at h; exact ih h
    case AesNi =>
      by_cases hc : ct.aes
      · exact hc
      · rw [if_neg hc] at h; exact ih h
    case Fnv1a => exact absurd h (by simp)
    case Xxh3 => exact absurd h (by simp)

/-- The xxh3 path lands strictly below the shard count. -/
lemma shard_with_xxh3_lt (p : HashPrims) (e : FastShard) (key : List Nat)
    (hn : 0 < e.shard_count) :
    e.shard_with_xxh3 p key < e.shard_count :=
  mod_mod_lt _ _ _ hn

/-! Claim theorems. -/

/-- Claim C1: for every engine with positive shard_count, every capability
configuration, every hash-primitive instantiation and every key, shard
returns an index strictly below shard_count. -/
theorem shard_in_range (p : HashPrims) (ct rt : Caps) (e : FastShard)
    (key : List Nat) (hn : 0 < e.shard_count) :
    e.shard p ct rt key < e.shard_count := by
  have hx : ∀ k, e.shard_with_xxh3 p k < e.shard_count := fun k =>
    shard_with_xxh3_lt p e k hn
  unfold FastShard.shard
  split
  · unfold FastShard.shard_with_avx512
    split
    · split
      · exact Nat.mod_lt _ hn
      · exact hx key
    · exact hx key
  · unfold FastShard.shard_with_avx2
    split
    · split
      · exact Nat.mod_lt _ hn
      · exact hx key
    · exact hx key
  · unfold FastShard.shard_with_aesni
    split
    · split
      · exact Nat.mod_lt _ hn
      · exact hx key
    · exact hx key
  · exact mod_mod_lt _ _ _ hn
  · exact hx key

/-- Witness for C1 at a concrete engine, key and platform. -/
theorem shard_in_range_witness :
    (FastShard.new 4).shard zeroPrims noCaps noCaps [1, 2, 3] <
      (FastShard.new 4).shard_count :=
  shard_in_range zeroPrims noCaps noCaps (FastShard.new 4) [1, 2, 3]
    (by decide)

/-- Claim C2: shard is deterministic — with a fixed engine configuration,
fixed platform capabilities and fixed hash primitives, two calls on the
same key return the same index. -/
theorem shard_deterministic (p : HashPrims) (ct rt : Caps) (e : FastShard)
    (key : List Nat) :
    e.shard p ct rt key = e.shard p ct rt key := rfl

/-- Claim C3 (code evaluated at the failing input): both constructors
accept shard_count = 0 without any rejection, storing the zero divisor
that the first shard call then reaches. -/
theorem construction_accepts_zero :
    (FastShard.new 0).shard_count = 0 ∧
    (FastShard.with_config 0 ShardConfig.default).shard_count = 0 :=
  ⟨rfl, rfl⟩

/-- Claim C4 counterexample: with_config does not reject a configuration
whose tier list and default list are both empty preference lists —
construction succeeds and returns the engine unchanged. -/
theorem with_config_accepts_empty_lists :
    FastShard.with_config 5 emptyPrefsConfig =
      { shard_count := 5, config := emptyPrefsConfig } := rfl

/-- An engine over emptyPrefsConfig always resolves to the Xxh3 fallback:
whether or not the single tier matches the length, the selected list is
empty and the selection loop body never runs. -/
lemma emptyPrefs_algo (ct : Caps) (len : Nat) :
    get_algorithm_for_size ct emptyPrefsConfig len = .Xxh3 := by
  unfold get_algorithm_for_size emptyPrefsConfig findTierAlgo
  split
  · rfl
  · rfl

/-- Claim C4 as amended: constructing an engine over empty preference
lists is not rejected; no validation happens at construction, and shard on
the resulting engine silently takes the Xxh3 fallback, still returning an
in-range index. -/
theorem with_config_empty_no_validation (p : HashPrims) (ct rt : Caps)
    (n : Nat) (key : List Nat) (hn : 0 < n) :
    (FastShard.with_config n emptyPrefsConfig).config = emptyPrefsConfig ∧
    (FastShard.with_config n emptyPrefsConfig).shard p ct rt key =
      (FastShard.with_config n emptyPrefsConfig).shard_with_xxh3 p key ∧
    (FastShard.with_config n emptyPrefsConfig).shard p ct rt key < n := by
  have hA : get_algorithm_for_size ct
      (FastShard.with_config n emptyPrefsConfig).config key.length = .Xxh3 :=
    emptyPrefs_algo ct key.length
  refine ⟨rfl, ?_, ?_⟩
  · simp [FastShard.shard, hA]
  · simp only [FastShard.shard, hA]
    exact shard_with_xxh3_lt p _ key hn

/-- Witness for the amended C4 at a concrete engine and key. -/
theorem with_config_empty_no_validation_witness :
    (FastShard.with_config 5 emptyPrefsConfig).config = emptyPrefsConfig ∧
    (FastShard.with_config 5 emptyPrefsConfig).shard zeroPrims noCaps noCaps
        [9] =
      (FastShard.with_config 5 emptyPrefsConfig).shard_with_xxh3 zeroPrims
        [9] ∧
    (FastShard.with_config 5 emptyPrefsConfig).shard zeroPrims noCaps noCaps
        [9] < 5 :=
  with_config_empty_no_validation zeroPrims noCaps noCaps 5 [9] (by decide)

/-- Claim C5: tier resolution is first-match-wins in tier insertion order
with an inclusive range test and a default fallback: the source selector
factors through the spec-worded resolver specResolve, and specResolve
satisfies the first-match recurrence (head tier wins whenever its inclusive
range contains the size, regardless of later overlapping tiers). -/
theorem tier_resolution_first_match (ct : Caps) (cfg : ShardConfig)
    (size : Nat) :
    get_algorithm_for_size ct cfg size =
      get_available_algorithm ct (specResolve cfg size) ∧
    (∀ dflt : List ShardAlgorithm,
      specResolve { tiers := [], default_algorithms := dflt } size = dflt) ∧
    (∀ (t : ShardTier) (rest : List ShardTier)
        (dflt : List ShardAlgorithm),
      specResolve { tiers := t :: rest, default_algorithms := dflt } size =
        if tierContains t size then t.algorithms
        else specResolve { tiers := rest, default_algorithms := dflt } size) := by
  refine ⟨gafs_eq_spec ct cfg size, fun dflt => rfl, fun t rest dflt => ?_⟩
  by_cases h : tierContains t size <;> simp [specResolve, List.find?, h]

/-- Claim C6: algorithm selection returns the first entry of the
preference list whose capability is available, where Fnv1a and Xxh3 are
unconditionally available and Avx512, Avx2, AesNi are gated on their
capability flags; an exhausted list yields the fixed Xxh3 fallback. -/
theorem selection_first_available (ct : Caps) (l : List ShardAlgorithm) :
    get_available_algorithm ct l =
      (l.find? (specAvailable ct)).getD .Xxh3 ∧
    specAvailable ct .Fnv1a = true ∧
    specAvailable ct .Xxh3 = true ∧
    specAvailable ct .Avx512 = ct.avx512f ∧
    specAvailable ct .Avx2 = ct.avx2 ∧
    specAvailable ct .AesNi = ct.aes ∧
    get_available_algorithm ct [] = .Xxh3 :=
  ⟨gaa_eq_specSelect ct l, rfl, rfl, rfl, rfl, rfl, rfl⟩

/-- The xxh3 path with an in-width shard count: the trailing u32 cast is
the identity and the path is digest-mod-count. -/
lemma shard_with_xxh3_decomp (p : HashPrims) (e : FastShard)
    (key : List Nat) (hn : 0 < e.shard_count)
    (hw : e.shard_count ≤ 2 ^ 32) :
    e.shard_with_xxh3 p key =
      (p.xxh3_64 key % 2 ^ 64) % e.shard_count :=
  mod_cast_eq _ _ _ hn hw

/-- Claim C7: shard follows the four steps — resolve the key length to a
preference list, select a concrete algorithm from it, compute the selected
digest (a 64-bit value) over the full key, and return digest mod
shard_count with the u32 truncation being lossless. -/
theorem shard_four_steps (p : HashPrims) (ct rt : Caps) (e : FastShard)
    (key : List Nat) (hn : 0 < e.shard_count)
    (hw : e.shard_count ≤ 2 ^ 32) :
    e.shard p ct rt key =
      digest p rt (specSelect ct (specResolve e.config key.length)) key %
        e.shard_count ∧
    digest p rt (specSelect ct (specResolve e.config key.length)) key <
      2 ^ 64 := by
  have hsel : specSelect ct (specResolve e.config key.length) =
      get_algorithm_for_size ct e.config key.length := by
    rw [gafs_eq_spec, gaa_eq_specSelect]
  rw [hsel]
  have hx64 : p.xxh3_64 key % 2 ^ 64 < 2 ^ 64 := Nat.mod_lt _ (by norm_num)
  have h32_64 : (2 : Nat) ^ 32 < 2 ^ 64 := by norm_num
  cases hA : get_algorithm_for_size ct e.config key.length with
  | Avx512 =>
    have hA2 := hA
    rw [gafs_eq_spec] at hA2
    have hct := gaa_avx512_sound ct _ hA2
    cases hrt : rt.avx512f
    · constructor
      · simp only [FastShard.shard, hA, FastShard.shard_with_avx512, hct,
          if_true, hrt, if_false, digest]
        exact shard_with_xxh3_decomp p e key hn hw
      · simp only [digest, hrt, if_false]
        exact hx64
    · constructor
      · simp [FastShard.shard, hA, FastShard.shard_with_avx512, hct, hrt,
          digest]
      · simp only [digest, hrt, if_true]
        exact lt_trans (avx512Hash_lt key) h32_64
  | Avx2 =>
    have hA2 := hA
    rw [gafs_eq_spec] at hA2
    have hct := gaa_avx2_sound ct _ hA2
    cases hrt : rt.avx2
    · constructor
      · simp only [FastShard.shard, hA, FastShard.shard_with_avx2, hct,
          if_true, hrt, if_false, digest]
        exact shard_with_xxh3_decomp p e key hn hw
      · simp only [digest, hrt, if_false]
        exact hx64
    · constructor
      · simp [FastShard.shard, hA, FastShard.shard_with_avx2, hct, hrt,
          digest]
      · simp only [digest, hrt, if_true]
        exact lt_trans (avx2Hash_lt key) h32_64
  | AesNi =>
    have hA2 := hA
    rw [gafs_eq_spec] at hA2
    have hct := gaa_aes_sound ct _ hA2
    cases hrt : rt.aes
    · constructor
      · simp only [FastShard.shard, hA, FastShard.shard_with_aesni, hct,
          if_true, hrt, if_false, digest]
        exact shard_with_xxh3_decomp p e key hn hw
      · simp only [digest, hrt, if_false]
        exact hx64
    · constructor
      · simp [FastShard.shard, hA, FastShard.shard_with_aesni, hct, hrt,
          digest]
      · simp only [digest, hrt, if_true]
        exact lt_trans (Nat.mod_lt _ (by norm_num)) h32_64
  | Fnv1a =>
    constructor
    · simp only [FastShard.shard, hA, FastShard.shard_with_fnv1a, digest]
      exact mod_cast_eq _ _ _ hn hw
    · simp only [digest]
      exact Nat.mod_lt _ (by norm_num)
  | Xxh3 =>
    constructor
    · simp only [FastShard.shard, hA, digest]
      exact shard_with_xxh3_decomp p e key hn hw
    · simp only [digest]
      exact hx64

/-- Witness for C7 at a concrete engine, key and platform. -/
theorem shard_four_steps_witness :
    (FastShard.new 4).shard zeroPrims noCaps noCaps [1, 2, 3] =
      digest zeroPrims noCaps
        (specSelect noCaps
          (specResolve (FastShard.new 4).config [1, 2, 3].length))
        [1, 2, 3] % (FastShard.new 4).shard_count ∧
    digest zeroPrims noCaps
      (specSelect noCaps
        (specResolve (FastShard.new 4).config [1, 2, 3].length))
      [1, 2, 3] < 2 ^ 64 :=
  shard_four_steps zeroPrims noCaps noCaps (FastShard.new 4) [1, 2, 3]
    (by decide) (by decide)

/-- A configuration whose single tier prefers only the three
hardware-gated algorithms. -/
def hwOnlyConfig : ShardConfig :=
  { tiers :=
      [{ lo := 0, hi := usizeMax, algorithms := [.Avx512, .Avx2, .AesNi] }],
    default_algorithms := [.Xxh3] }

/-- Claim C8: on a platform with none of the hardware capabilities, an
engine whose resolved preference list is [Avx512, Avx2, AesNi] returns,
for every key, exactly the Xxh3-based result, silently, and it is in
range. -/
theorem fallback_substitution (p : HashPrims) (n : Nat) (cfg : ShardConfig)
    (key : List Nat)
    (hres : specResolve cfg key.length = [.Avx512, .Avx2, .AesNi])
    (hn : 0 < n) :
    (FastShard.with_config n cfg).shard p noCaps noCaps key =
      (FastShard.with_config n cfg).shard_with_xxh3 p key ∧
    (FastShard.with_config n cfg).shard p noCaps noCaps key < n := by
  have hA : get_algorithm_for_size noCaps
      (FastShard.with_config n cfg).config key.length = .Xxh3 := by
    show get_algorithm_for_size noCaps cfg key.length = .Xxh3
    rw [gafs_eq_spec, hres]
    rfl
  constructor
  · simp [FastShard.shard, hA]
  · simp only [FastShard.shard, hA]
    exact shard_with_xxh3_lt p _ key hn

/-- Witness for C8 at a concrete hardware-only engine and key. -/
theorem fallback_substitution_witness :
    (FastShard.with_config 3 hwOnlyConfig).shard zeroPrims noCaps noCaps
        [7] =
      (FastShard.with_config 3 hwOnlyConfig).shard_with_xxh3 zeroPrims
        [7] ∧
    (FastShard.with_config 3 hwOnlyConfig).shard zeroPrims noCaps noCaps
        [7] < 3 :=
  fallback_substitution zeroPrims 3 hwOnlyConfig [7] (by rfl) (by decide)

/-- Claim C9: the default configuration has exactly the two documented
tiers — lengths 0..=16 preferring Avx512, Avx2, AesNi, Fnv1a, Xxh3 and
lengths 17..=usize::MAX preferring Avx512, Avx2, AesNi, Xxh3, Fnv1a — with
default fallback list [Xxh3]; new installs it; and the large tier contains
every representable length from 17 up to the unbounded-sentinel maximum. -/
theorem default_config_contents :
    ShardConfig.default.tiers =
      [ { lo := 0, hi := 16,
          algorithms := [.Avx512, .Avx2, .AesNi, .Fnv1a, .Xxh3] },
        { lo := 17, hi := usizeMax,
          algorithms := [.Avx512, .Avx2, .AesNi, .Xxh3, .Fnv1a] } ] ∧
    ShardConfig.default.default_algorithms = [.Xxh3] ∧
    (∀ n : Nat, (FastShard.new n).config = ShardConfig.default) ∧
    ∀ s : Nat,
      tierContains
        { lo := 17, hi := usizeMax,
          algorithms := [.Avx512, .Avx2, .AesNi, .Xxh3, .Fnv1a] }
        (min (17 + s) usizeMax) = true := by
  refine ⟨rfl, rfl, fun n => rfl, fun s => ?_⟩
  have h2 : (17 : Nat) ≤ usizeMax := by norm_num [usizeMax]
  have h1 : 17 ≤ min (17 + s) usizeMax := le_min (by omega) h2
  have h3 : min (17 + s) usizeMax ≤ usizeMax := min_le_right _ _
  simp [tierContains, h1, h3]

/-- Claim C10: an empty preference list raises no error — the selection
loop body never runs and the selector returns the fixed Xxh3 fallback —
so shard on a configuration resolving to an empty list still returns the
Xxh3 result, in range, for any positive shard count. -/
theorem empty_prefs_xxh3_fallback (p : HashPrims) (ct rt : Caps) (n : Nat)
    (cfg : ShardConfig) (key : List Nat)
    (hres : specResolve cfg key.length = []) (hn : 0 < n) :
    get_available_algorithm ct [] = .Xxh3 ∧
    (FastShard.with_config n cfg).shard p ct rt key =
      (FastShard.with_config n cfg).shard_with_xxh3 p key ∧
    (FastShard.with_config n cfg).shard p ct rt key < n := by
  have hA : get_algorithm_for_size ct
      (FastShard.with_config n cfg).config key.length = .Xxh3 := by
    show get_algorithm_for_size ct cfg key.length = .Xxh3
    rw [gafs_eq_spec, hres]
    rfl
  refine ⟨rfl, ?_, ?_⟩
  · simp [FastShard.shard, hA]
  · simp only [FastShard.shard, hA]
    exact shard_with_xxh3_lt p _ key hn

/-- Witness for C10 at a concrete empty-preference engine and key. -/
theorem empty_prefs_xxh3_fallback_witness :
    get_available_algorithm noCaps [] = .Xxh3 ∧
    (FastShard.with_config 7 emptyPrefsConfig).shard zeroPrims noCaps
        noCaps [2] =
      (FastShard.with_config 7 emptyPrefsConfig).shard_with_xxh3 zeroPrims
        [2] ∧
    (FastShard.with_config 7 emptyPrefsConfig).shard zeroPrims noCaps
        noCaps [2] < 7 :=
  empty_prefs_xxh3_fallback zeroPrims noCaps noCaps 7 emptyPrefsConfig [2]
    (by rfl) (by decide)

end FastShardLib
